import Mathlib

/-!
Shallow embedding of the multi-tier cache manager (`cache.py`) and proofs of
its specified properties.

Modelling conventions:
* Python `float` timestamps and TTLs are modelled by `Rat` (exact arithmetic,
  decidable order); `time.time()` becomes an explicit `now : Rat` argument.
* Python `dict` (insertion ordered, unique keys) is modelled by an association
  list `List (String × α)`; `dictInsert` replaces in place, `dictErase`
  removes the (unique) binding.
* Fallible Python code is modelled with `Except String`; an uncaught Python
  exception is an `Except.error`.
* `hashlib.md5(...).hexdigest()` is an arbitrary pure function of the input
  string, so the development is parameterised by `md5hex : String → String`;
  every theorem holds for every choice of hash function, in particular MD5.
* The coroutine wrappers (`async`/`await`) are pure sequencing and are elided.
-/

/-- Python values that may appear in a `params` mapping or as a cached payload.
`obj` stands for any value of a type that `json.dumps` cannot serialize
(e.g. a `set` or a custom object); `typeName` is the Python type name. -/
inductive PyVal where
  | str (s : String)
  | int (n : Int)
  | bool (b : Bool)
  | null
  | list (xs : List PyVal)
  | dict (kvs : List (String × PyVal))
  | obj (typeName : String)

/-- Ordering of JSON object members by key, used by `json.dumps(..., sort_keys=True)`. -/
def keyLe (p q : String × PyVal) : Prop := p.1 ≤ q.1

/-- Strict version of `keyLe`, used to show the sorted member list is unique. -/
def keyLt (p q : String × PyVal) : Prop := p.1 < q.1

instance : DecidableRel keyLe := fun p q => inferInstanceAs (Decidable (p.1 ≤ q.1))

instance : IsTotal (String × PyVal) keyLe := ⟨fun p q => le_total p.1 q.1⟩

instance : IsTrans (String × PyVal) keyLe := ⟨fun _ _ _ h h2 => le_trans h h2⟩

instance : IsAntisymm (String × PyVal) keyLt :=
  ⟨fun _ _ h h2 => absurd (lt_trans h h2) (lt_irrefl _)⟩

/-- JSON string quoting as performed by `json.dumps` (quote and backslash are
escaped; the exact escapes for control and non-ASCII characters are immaterial
to every property proved here and are elided). -/
def jsonQuote (s : String) : String :=
  "\"" ++ String.join (s.data.map (fun c =>
    if c = '"' then "\\\"" else if c = '\\' then "\\\\" else String.singleton c)) ++ "\""

/-- Error-propagating map, the sequencing `json.dumps` performs over the
members of an array or object. -/
def exceptMap {α β : Type} (f : α → Except String β) : List α → Except String (List β)
  | [] => .ok []
  | x :: xs => do
    let y ← f x
    let ys ← exceptMap f xs
    .ok (y :: ys)

/-- Model of `json.dumps(v, sort_keys=True)`: object members are emitted in
ascending key order; a value `json` cannot encode raises `TypeError`
(modelled as `Except.error` carrying CPython's message). -/
def jsonDumps : PyVal → Except String String
  | .str s => .ok (jsonQuote s)
  | .int n => .ok (toString n)
  | .bool b => .ok (if b then "true" else "false")
  | .null => .ok "null"
  | .obj t => .error ("Object of type " ++ t ++ " is not JSON serializable")
  | .list xs => do
    let parts ← exceptMap (fun x => jsonDumps x.1) xs.attach
    .ok ("[" ++ ", ".intercalate parts ++ "]")
  | .dict kvs => do
    let parts ← exceptMap (fun kv => do
        let vs ← jsonDumps kv.1.2
        .ok (jsonQuote kv.1.1 ++ ": " ++ vs)) (List.insertionSort keyLe kvs).attach
    .ok ("\x7b" ++ ", ".intercalate parts ++ "\x7d")
termination_by v => sizeOf v
decreasing_by
  · have h := List.sizeOf_lt_of_mem x.2
    simp_wf
    omega
  · have h1 : kv.1 ∈ kvs := (List.perm_insertionSort keyLe kvs).mem_iff.mp kv.2
    have h2 := List.sizeOf_lt_of_mem h1
    have h3 : sizeOf kv.1.2 < sizeOf kv.1 := by
      obtain ⟨a, b⟩ := kv.1
      simp
    simp_wf
    omega

/-- Values `json.dumps` can encode: no `obj` occurs anywhere inside. -/
def jsonSerializable : PyVal → Bool
  | .str _ => true
  | .int _ => true
  | .bool _ => true
  | .null => true
  | .obj _ => false
  | .list xs => xs.attach.all (fun x => jsonSerializable x.1)
  | .dict kvs => kvs.attach.all (fun kv => jsonSerializable kv.1.2)
termination_by v => sizeOf v
decreasing_by
  · have h := List.sizeOf_lt_of_mem x.2
    simp_wf
    omega
  · have h2 := List.sizeOf_lt_of_mem kv.2
    have h3 : sizeOf kv.1.2 < sizeOf kv.1 := by
      obtain ⟨a, b⟩ := kv.1
      simp
    simp_wf
    omega

/-- CacheManager._generate_key (cache.py lines 122-128):
`key_data = f"ns:identifier"`; when `params` is truthy (a nonempty dict) the
MD5 hex digest of `json.dumps(params, sort_keys=True)` is appended as a third
colon-separated segment.  An empty dict is falsy in Python and is treated the
same as `params=None`. -/
def generateKey (md5hex : String → String) (ns ident : String)
    (params : Option (List (String × PyVal))) : Except String String :=
  let keyData := ns ++ ":" ++ ident
  match params with
  | none => .ok keyData
  | some [] => .ok keyData
  | some kvs => do
    let paramStr ← jsonDumps (.dict kvs)
    .ok (keyData ++ ":" ++ md5hex paramStr)

/-- Python `key.startswith(pre)`. -/
def pyStartswith (key pre : String) : Bool := pre.data.isPrefixOf key.data

/-- Python dict lookup (`d[k]` / `d.get(k)`); keys are unique in a Python dict
so the first binding is the binding. -/
def dictGet? {α : Type} : List (String × α) → String → Option α
  | [], _ => none
  | (k2, v) :: d, k => if k2 = k then some v else dictGet? d k

/-- Python dict store `d[k] = v`: replaces the binding in place if present,
otherwise appends (Python dicts are insertion ordered). -/
def dictInsert {α : Type} : List (String × α) → String → α → List (String × α)
  | [], k, v => [(k, v)]
  | (k2, v2) :: d, k, v => if k2 = k then (k, v) :: d else (k2, v2) :: dictInsert d k v

/-- Python `del d[k]` (on a dict with unique keys); deleting an absent key is
the identity, matching the guarded `if k in d: del d[k]` uses in cache.py. -/
def dictErase {α : Type} : List (String × α) → String → List (String × α)
  | [], _ => []
  | (k2, v2) :: d, k => if k2 = k then d else (k2, v2) :: dictErase d k

/-- Keys of a modelled dict, in insertion order. -/
def dictKeys {α : Type} (d : List (String × α)) : List String := d.map Prod.fst

/-- Python `repr` as used inside `str` of containers.  `obj` has an
address-dependent repr in CPython; any fixed text is adequate here since the
`size` field it feeds is reporting-only and no proved property inspects it. -/
def pyRepr : PyVal → String
  | .str s => "\x27" ++ s ++ "\x27"
  | .int n => toString n
  | .bool b => if b then "True" else "False"
  | .null => "None"
  | .list xs => "[" ++ ", ".intercalate (xs.attach.map (fun x => pyRepr x.1)) ++ "]"
  | .dict kvs =>
    "\x7b" ++ ", ".intercalate (kvs.attach.map
      (fun kv => "\x27" ++ kv.1.1 ++ "\x27: " ++ pyRepr kv.1.2)) ++ "\x7d"
  | .obj t => "<" ++ t ++ " object>"
termination_by v => sizeOf v
decreasing_by
  · have h := List.sizeOf_lt_of_mem x.2
    simp_wf
    omega
  · have h2 := List.sizeOf_lt_of_mem kv.2
    have h3 : sizeOf kv.1.2 < sizeOf kv.1 := by
      obtain ⟨a, b⟩ := kv.1
      simp
    simp_wf
    omega

/-- Python `str(v)`: the string itself for a `str`, `repr` otherwise. -/
def pyStr : PyVal → String
  | .str s => s
  | v => pyRepr v

/-- CacheEntry (cache.py lines 27-40): payload plus metadata; `size` defaults
to 0 as in the dataclass. -/
structure CacheEntry where
  data : PyVal
  timestamp : Rat
  ttl : Rat
  key : String
  size : Nat := 0

/-- CacheEntry.is_expired (cache.py lines 36-37): `time.time() > timestamp + ttl`. -/
def CacheEntry.is_expired (e : CacheEntry) (now : Rat) : Bool :=
  decide (now > e.timestamp + e.ttl)

/-- Record held by the external diskcache store for one key: the
`CacheEntry.to_dict()` payload plus the store's own expiry deadline
(`expire=ttl` at store time). -/
structure DiskRecord where
  value : CacheEntry
  expireAt : Rat

/-- Row of the SQLite `cache` table (cache.py lines 109-119); the pickled
`data` blob is modelled by the value it deserializes back to. -/
structure SqliteRow where
  key : String
  data : PyVal
  timestamp : Rat
  ttl : Rat
  size : Nat

/-- Storage owned by the manager: which attributes exist depends on which
`_init_*_cache` ran.  `mem` carries `self.cache` (a plain dict),
`self.access_order` and `self.max_size`; `disk` carries a diskcache `Cache`;
`sqlite` carries the rows of the `cache` table behind `self.conn`. -/
inductive BackendState where
  | mem (cache : List (String × CacheEntry)) (accessOrder : List (String × Rat)) (maxSize : Nat)
  | disk (cache : List (String × DiskRecord))
  | sqlite (rows : List SqliteRow)

/-- Instance state of a constructed CacheManager. -/
structure MgrState where
  cache_type : String
  default_ttl : Rat
  backend : BackendState

/-- Configuration dict passed to the constructor; absent keys are `none`.
The path-valued keys (`cache_dir`, `db_path`) and `size_limit` only choose
where the external store lives and are not observable in the modelled
behaviour. -/
structure Config where
  type? : Option String := none
  default_ttl? : Option Rat := none
  max_size? : Option Nat := none

/-- CacheManager._init_memory_cache (cache.py lines 87-92). -/
def initMemoryCache (cfg : Config) : BackendState :=
  .mem [] [] (cfg.max_size?.getD 1000)

/-- CacheManager._init_disk_cache (cache.py lines 94-103): when `diskcache`
cannot be imported it logs a warning and installs the memory structures
instead — note that `self.cache_type` is left untouched by this method. -/
def initDiskCache (hasDiskcache : Bool) (cfg : Config) : BackendState :=
  if hasDiskcache then .disk [] else initMemoryCache cfg

/-- CacheManager._init_sqlite_cache (cache.py lines 105-120): fresh table. -/
def initSqliteCache : BackendState := .sqlite []

/-- CacheManager.__init__ body once it decides to initialize
(cache.py lines 59-74). -/
def initManager (hasDiskcache : Bool) (cfg? : Option Config) : MgrState :=
  let cfg := cfg?.getD { type? := some "memory", default_ttl? := some 3600 }
  let ctype := cfg.type?.getD "memory"
  { cache_type := ctype
    default_ttl := cfg.default_ttl?.getD 3600
    backend :=
      if ctype = "disk" then initDiskCache hasDiskcache cfg
      else if ctype = "sqlite" then initSqliteCache
      else initMemoryCache cfg }

/-- Class-level singleton state: `CacheManager._instance` and
`CacheManager._initialized` (true exactly when the current instance has run
its one-time `__init__` body). -/
structure ClassState where
  instance? : Option MgrState
  initialized : Bool

/-- Attribute-less object returned by `__new__` before `__init__` fills it;
it is observable only in states unreachable through the class API. -/
def uninitObj : MgrState :=
  { cache_type := "", default_ttl := 0, backend := .mem [] [] 0 }

/-- CacheManager.__new__ followed by __init__ (cache.py lines 49-74):
allocate only if `_instance is None`; initialize only once
(first-writer-wins), from the default config when `config is None`. -/
def construct (hasDiskcache : Bool) (cls : ClassState) (cfg? : Option Config) :
    ClassState × MgrState :=
  let inst := cls.instance?.getD uninitObj
  if cls.initialized then ({ cls with instance? := some inst }, inst)
  else
    let m := initManager hasDiskcache cfg?
    ({ instance? := some m, initialized := true }, m)

/-- CacheManager.reset_instance (cache.py lines 81-85). -/
def reset_instance (_cls : ClassState) : ClassState :=
  { instance? := none, initialized := false }

/-- Ordering of access-order items by last-access time, as used by
`sorted(self.access_order.items(), key=lambda x: x[1])`. -/
def tsLe (p q : String × Rat) : Prop := p.2 ≤ q.2

instance : DecidableRel tsLe := fun p q => inferInstanceAs (Decidable (p.2 ≤ q.2))

instance : IsTotal (String × Rat) tsLe := ⟨fun p q => le_total p.2 q.2⟩

instance : IsTrans (String × Rat) tsLe := ⟨fun _ _ _ h h2 => le_trans h h2⟩

/-- CacheManager._evict_lru (cache.py lines 194-206): if the access-order map
is empty, return; else sort its items by ascending last-access time and delete
the oldest `max(1, n // 10)` keys from both maps (`del self.cache[key]` is
guarded by a membership test, `del self.access_order[key]` is not — its key
comes from `access_order` itself and is present). -/
def evictLru (cache : List (String × CacheEntry)) (accessOrder : List (String × Rat)) :
    List (String × CacheEntry) × List (String × Rat) :=
  if accessOrder = [] then (cache, accessOrder)
  else
    let sortedItems := List.insertionSort tsLe accessOrder
    let itemsToRemove := max 1 (sortedItems.length / 10)
    let victims := dictKeys (sortedItems.take itemsToRemove)
    (victims.foldl dictErase cache, victims.foldl dictErase accessOrder)

/-- CacheManager._get_memory (cache.py lines 162-175): returns the new
`(cache, access_order)` pair and the result.  A hit on an expired entry
deletes it from both maps and reports a miss; a live hit refreshes the
access-order timestamp. -/
def getMemory (cache : List (String × CacheEntry)) (accessOrder : List (String × Rat))
    (key : String) (now : Rat) :
    List (String × CacheEntry) × List (String × Rat) × Option PyVal :=
  match dictGet? cache key with
  | none => (cache, accessOrder, none)
  | some entry =>
    if entry.is_expired now then
      (dictErase cache key, dictErase accessOrder key, none)
    else
      (cache, dictInsert accessOrder key now, some entry.data)

/-- CacheManager._set_memory (cache.py lines 177-192): evict first when the
entry count is at capacity, then insert/overwrite and stamp the access order;
`size=len(str(data))`. -/
def setMemory (cache : List (String × CacheEntry)) (accessOrder : List (String × Rat))
    (maxSize : Nat) (key : String) (data : PyVal) (ttl now : Rat) :
    List (String × CacheEntry) × List (String × Rat) × Bool :=
  let evicted := if cache.length ≥ maxSize then evictLru cache accessOrder
                 else (cache, accessOrder)
  let entry : CacheEntry :=
    { data := data, timestamp := now, ttl := ttl, key := key, size := (pyStr data).length }
  (dictInsert evicted.1 key entry, dictInsert evicted.2 key now, true)

/-- Modelled from the spec: the external diskcache store ("an embedded
key/value store on the filesystem with native TTL support") returns absent for
a key whose expiry deadline has passed, and the stored value otherwise. -/
def diskcacheGet (entries : List (String × DiskRecord)) (key : String) (now : Rat) :
    Option CacheEntry :=
  match dictGet? entries key with
  | none => none
  | some r => if now > r.expireAt then none else some r.value

/-- CacheManager._get_disk (cache.py lines 208-221).  On the real diskcache
backend: fetch, rebuild the `CacheEntry`, delete-and-miss when expired.  In
the fallback state (`self.cache` is the plain dict installed by
`_init_memory_cache`) `dict.get` itself works, but any stored value would be a
`CacheEntry` object rather than a dict, so `CacheEntry(**entry_dict)` raises
`TypeError`, the method's own `except` swallows it and `None` is returned; on
a sqlite-initialised manager `self.cache` does not exist and the
`AttributeError` is likewise swallowed. -/
def getDisk (b : BackendState) (key : String) (now : Rat) : BackendState × Option PyVal :=
  match b with
  | .disk entries =>
    match diskcacheGet entries key now with
    | none => (b, none)
    | some entry =>
      if entry.is_expired now then (.disk (dictErase entries key), none)
      else (b, some entry.data)
  | .mem _ _ _ => (b, none)
  | .sqlite _ => (b, none)

/-- CacheManager._set_disk (cache.py lines 223-236).  On the real diskcache
backend the entry dict is stored with `expire=ttl`.  In the fallback state
`self.cache` is a plain dict, which has no `set` method: the `AttributeError`
is caught by the method's own `except` and `False` is returned (nothing is
stored); same for the missing attribute on a sqlite-initialised manager. -/
def setDisk (b : BackendState) (key : String) (data : PyVal) (ttl now : Rat) :
    BackendState × Bool :=
  match b with
  | .disk entries =>
    let entry : CacheEntry := { data := data, timestamp := now, ttl := ttl, key := key }
    (.disk (dictInsert entries key ⟨entry, now + ttl⟩), true)
  | .mem _ _ _ => (b, false)
  | .sqlite _ => (b, false)

/-- CacheManager._get_sqlite (cache.py lines 238-260): `SELECT` by primary
key; when `now > timestamp + ttl` the row is deleted and the result is `None`,
else the unpickled payload is returned. -/
def getSqlite (rows : List SqliteRow) (key : String) (now : Rat) :
    List SqliteRow × Option PyVal :=
  match rows.find? (fun r => r.key = key) with
  | none => (rows, none)
  | some r =>
    if now > r.timestamp + r.ttl then
      (rows.filter (fun r2 => ¬(r2.key = key)), none)
    else
      (rows, some r.data)

/-- CacheManager._set_sqlite (cache.py lines 262-276): `INSERT OR REPLACE`
keyed by the cache key; the stored blob size stands in for
`len(pickle.dumps(data))` (reporting-only). -/
def setSqlite (rows : List SqliteRow) (key : String) (data : PyVal) (ttl now : Rat) :
    List SqliteRow × Bool :=
  (rows.filter (fun r => ¬(r.key = key)) ++
    [{ key := key, data := data, timestamp := now, ttl := ttl, size := (pyRepr data).length }],
   true)

/-- Dispatch performed inside `CacheManager.get`'s `try` block
(cache.py lines 134-143).  The final catch-all arm models Python falling off
the end of the method (an unrecognised `cache_type` returns `None`); the
`mem`-branch mismatch arms model an `AttributeError` reaching the outer
`except`, which logs and returns `None`. -/
def dispatchGet (st : MgrState) (key : String) (now : Rat) : MgrState × Option PyVal :=
  if st.cache_type = "memory" then
    match st.backend with
    | .mem c ao ms =>
      let r := getMemory c ao key now
      ({ st with backend := .mem r.1 r.2.1 ms }, r.2.2)
    | _ => (st, none)
  else if st.cache_type = "disk" then
    let r := getDisk st.backend key now
    ({ st with backend := r.1 }, r.2)
  else if st.cache_type = "sqlite" then
    match st.backend with
    | .sqlite rows =>
      let r := getSqlite rows key now
      ({ st with backend := .sqlite r.1 }, r.2)
    | _ => (st, none)
  else (st, none)

/-- Python `ttl = ttl or self.default_ttl` (cache.py line 149): `None` and `0`
(any falsy float) select the default; every other value — including a
negative one — is kept. -/
def effectiveTtl (ttl? : Option Rat) (dflt : Rat) : Rat :=
  match ttl? with
  | none => dflt
  | some t => if t = 0 then dflt else t

/-- Dispatch performed inside `CacheManager.set`'s `try` block
(cache.py lines 151-160); result `none` models the implicit `None` returned
for an unrecognised `cache_type`, `some false` on the `mem` mismatch arm
models the `AttributeError` reaching the outer `except` which returns
`False`. -/
def dispatchSet (st : MgrState) (key : String) (data : PyVal) (ttl now : Rat) :
    MgrState × Option Bool :=
  if st.cache_type = "memory" then
    match st.backend with
    | .mem c ao ms =>
      let r := setMemory c ao ms key data ttl now
      ({ st with backend := .mem r.1 r.2.1 ms }, some r.2.2)
    | _ => (st, some false)
  else if st.cache_type = "disk" then
    let r := setDisk st.backend key data ttl now
    ({ st with backend := r.1 }, some r.2)
  else if st.cache_type = "sqlite" then
    match st.backend with
    | .sqlite rows =>
      let r := setSqlite rows key data ttl now
      ({ st with backend := .sqlite r.1 }, some r.2)
    | _ => (st, some false)
  else (st, none)

namespace CacheManager

/-- CacheManager.get (cache.py lines 130-143).  `_generate_key` runs before
the `try` block, so a `TypeError` from `json.dumps` propagates to the caller;
every fault inside the dispatch is absorbed (see `dispatchGet`). -/
def get (md5hex : String → String) (st : MgrState) (ns ident : String)
    (params : Option (List (String × PyVal))) (now : Rat) :
    Except String (MgrState × Option PyVal) := do
  let key ← generateKey md5hex ns ident params
  .ok (dispatchGet st key now)

/-- CacheManager.set (cache.py lines 145-160); like `get`, key generation runs
before the `try` block. -/
def set (md5hex : String → String) (st : MgrState) (ns ident : String) (data : PyVal)
    (ttl? : Option Rat) (params : Option (List (String × PyVal))) (now : Rat) :
    Except String (MgrState × Option Bool) := do
  let key ← generateKey md5hex ns ident params
  .ok (dispatchSet st key data (effectiveTtl ttl? st.default_ttl) now)

end CacheManager

/-- SQLite `LIKE` compares ASCII letters case-insensitively; `Char.toLower`
folds exactly the basic latin range. -/
def sqliteLikeChar (p c : Char) : Bool := p.toLower = c.toLower

/-- SQL `LIKE` pattern matching as SQLite implements it for the
`DELETE FROM cache WHERE key LIKE ?` statement: `%` matches any sequence of
characters, `_` matches any single character, and plain characters compare
ASCII-case-insensitively. -/
def likeMatch : List Char → List Char → Bool
  | [], [] => true
  | [], _ :: _ => false
  | p :: ps, [] => p = '%' && likeMatch ps []
  | p :: ps, c :: cs =>
    if p = '%' then likeMatch ps (c :: cs) || likeMatch (p :: ps) cs
    else if p = '_' then likeMatch ps cs
    else sqliteLikeChar p c && likeMatch ps cs
termination_by p s => p.length + s.length
decreasing_by
  all_goals simp_wf
  all_goals omega

namespace CacheManager

/-- CacheManager._delete_key (cache.py lines 287-302).  Mismatch arms model
an `AttributeError` on a missing attribute, swallowed by the method's own
`except`; on a memory-typed manager whose `self.cache` is a diskcache store
the cache delete succeeds before `self.access_order` raises, so the partial
effect is kept. -/
def deleteKey (st : MgrState) (key : String) : MgrState :=
  if st.cache_type = "memory" then
    match st.backend with
    | .mem c ao ms => { st with backend := .mem (dictErase c key) (dictErase ao key) ms }
    | .disk e => { st with backend := .disk (dictErase e key) }
    | .sqlite _ => st
  else if st.cache_type = "disk" then
    match st.backend with
    | .disk e => { st with backend := .disk (dictErase e key) }
    | .mem c ao ms => { st with backend := .mem (dictErase c key) ao ms }
    | .sqlite _ => st
  else if st.cache_type = "sqlite" then
    match st.backend with
    | .sqlite rows => { st with backend := .sqlite (rows.filter (fun r => ¬(r.key = key))) }
    | _ => st
  else st

/-- CacheManager._delete_namespace (cache.py lines 304-322).  The memory and
disk branches collect the stored keys that start with `namespace + ":"` and
delete each collected key; the memory branch also drops the matching
access-order records.  The sqlite branch issues
`DELETE FROM cache WHERE key LIKE 'namespace:%'`.  Mismatch arms model a
swallowed `AttributeError`; the disk branch applied to the fallback plain
dict iterates and deletes successfully but touches no access-order map. -/
def deleteNamespace (st : MgrState) (ns : String) : MgrState :=
  if st.cache_type = "memory" then
    match st.backend with
    | .mem c ao ms =>
      let keysToDelete := (dictKeys c).filter (fun k => pyStartswith k (ns ++ ":"))
      { st with backend := .mem (keysToDelete.foldl dictErase c)
                                (keysToDelete.foldl dictErase ao) ms }
    | _ => st
  else if st.cache_type = "disk" then
    match st.backend with
    | .disk e =>
      let keysToDelete := (dictKeys e).filter (fun k => pyStartswith k (ns ++ ":"))
      { st with backend := .disk (keysToDelete.foldl dictErase e) }
    | .mem c ao ms =>
      let keysToDelete := (dictKeys c).filter (fun k => pyStartswith k (ns ++ ":"))
      { st with backend := .mem (keysToDelete.foldl dictErase c) ao ms }
    | .sqlite _ => st
  else if st.cache_type = "sqlite" then
    match st.backend with
    | .sqlite rows =>
      let kept := rows.filter (fun r => ¬(likeMatch (ns ++ ":%").data r.key.data = true))
      { st with backend := .sqlite kept }
    | _ => st
  else st

/-- CacheManager.invalidate (cache.py lines 278-285): a truthy `identifier`
deletes the single encoded key (key generation may raise, there is no
enclosing `try`); a falsy one — `None` or the empty string — wipes the
namespace. -/
def invalidate (md5hex : String → String) (st : MgrState) (ns : String)
    (ident? : Option String) (params : Option (List (String × PyVal))) :
    Except String MgrState :=
  match ident? with
  | some ident =>
    if ident = "" then .ok (deleteNamespace st ns)
    else do
      let key ← generateKey md5hex ns ident params
      .ok (deleteKey st key)
  | none => .ok (deleteNamespace st ns)

/-- Statistics report returned by `get_stats`; absent keys are `none`. -/
structure Stats where
  type : String
  default_ttl : Rat
  size : Option Nat := none
  max_size : Option Nat := none
  hit_ratio : Option String := none
  volume : Option Nat := none
  total_size : Option Nat := none
  error : Option String := none

/-- CacheManager.get_stats (cache.py lines 324-353).  The diskcache `volume()`
(bytes on disk) is modelled from the spec as the sum of recorded entry sizes;
no proved property depends on it.  In a mismatch state the update-dict literal
raises before `stats.update` runs, so only the `error` field is added —
in particular a disk-typed manager in the memory-fallback state reports an
`AttributeError` from `self.cache.volume()` instead of memory statistics. -/
def get_stats (st : MgrState) : Stats :=
  let base : Stats := { type := st.cache_type, default_ttl := st.default_ttl }
  if st.cache_type = "memory" then
    match st.backend with
    | .mem c _ ms =>
      { base with size := some c.length, max_size := some ms,
                  hit_ratio := some "not_tracked" }
    | _ => { base with error := some "AttributeError" }
  else if st.cache_type = "disk" then
    match st.backend with
    | .disk e =>
      { base with size := some e.length,
                  volume := some ((e.map (fun p => p.2.value.size)).sum) }
    | _ => { base with error := some "AttributeError" }
  else if st.cache_type = "sqlite" then
    match st.backend with
    | .sqlite rows =>
      { base with size := some rows.length,
                  total_size := some ((rows.map SqliteRow.size).sum) }
    | _ => { base with error := some "AttributeError" }
  else base

end CacheManager

/-! ### Association-list (Python dict) lemmas -/

theorem dictGet?_insert_self {α : Type} (d : List (String × α)) (k : String) (v : α) :
    dictGet? (dictInsert d k v) k = some v := by
  induction d with
  | nil => simp [dictInsert, dictGet?]
  | cons p d ih =>
    obtain ⟨k2, v2⟩ := p
    by_cases h : k2 = k
    · simp [dictInsert, h, dictGet?]
    · simp [dictInsert, h, dictGet?, ih]

theorem dictGet?_eq_none {α : Type} {d : List (String × α)} {k : String} :
    dictGet? d k = none ↔ k ∉ dictKeys d := by
  induction d with
  | nil => simp [dictGet?, dictKeys]
  | cons p d ih =>
    obtain ⟨k2, v2⟩ := p
    by_cases h : k2 = k
    · subst h
      simp [dictGet?, dictKeys]
    · have hne : ¬(k = k2) := fun h2 => h h2.symm
      simp only [dictGet?, if_neg h, dictKeys, List.map_cons, List.mem_cons, not_or]
      rw [ih]
      simp [dictKeys, hne]

theorem dictGet?_erase_ne {α : Type} (d : List (String × α)) (k k2 : String) (h : k2 ≠ k) :
    dictGet? (dictErase d k) k2 = dictGet? d k2 := by
  induction d with
  | nil => simp [dictErase]
  | cons p d ih =>
    obtain ⟨k3, v3⟩ := p
    by_cases h3 : k3 = k
    · subst h3
      have h4 : ¬(k3 = k2) := fun h2 => h h2.symm
      simp [dictErase, dictGet?, h4]
    · by_cases h4 : k3 = k2
      · simp [dictErase, h3, dictGet?, h4, h]
      · simp [dictErase, h3, dictGet?, h4, ih]

theorem mem_dictKeys {α : Type} {d : List (String × α)} {x : String} :
    x ∈ dictKeys d ↔ ∃ v, (x, v) ∈ d := by
  simp [dictKeys, List.mem_map, Prod.exists]

theorem dictErase_eq_filter {α : Type} {d : List (String × α)}
    (hnd : (dictKeys d).Nodup) (k : String) :
    dictErase d k = d.filter (fun p => p.1 ≠ k) := by
  induction d with
  | nil => simp [dictErase]
  | cons p d ih =>
    obtain ⟨k2, v2⟩ := p
    simp only [dictKeys, List.map_cons, List.nodup_cons] at hnd
    by_cases h : k2 = k
    · subst h
      have hfilter : d.filter (fun p => !decide (p.1 = k2)) = d :=
        List.filter_eq_self.mpr (fun a ha => by
          have hne : a.1 ≠ k2 := fun h2 => hnd.1 (h2 ▸ List.mem_map_of_mem Prod.fst ha)
          simp [hne])
      simp [dictErase, List.filter_cons, hfilter]
    · simp [dictErase, h, List.filter_cons, ih hnd.2]

theorem dictKeys_nodup_erase {α : Type} {d : List (String × α)}
    (hnd : (dictKeys d).Nodup) (k : String) :
    (dictKeys (dictErase d k)).Nodup := by
  rw [dictErase_eq_filter hnd k]
  exact hnd.sublist ((d.filter_sublist).map Prod.fst)

theorem mem_dictKeys_erase {α : Type} {d : List (String × α)}
    (hnd : (dictKeys d).Nodup) (k x : String) :
    x ∈ dictKeys (dictErase d k) ↔ x ∈ dictKeys d ∧ x ≠ k := by
  rw [dictErase_eq_filter hnd k]
  simp only [dictKeys, List.mem_map, List.mem_filter, decide_eq_true_eq]
  constructor
  · rintro ⟨p, ⟨hp, hpk⟩, rfl⟩
    exact ⟨⟨p, hp, rfl⟩, hpk⟩
  · rintro ⟨⟨p, hp, rfl⟩, hx⟩
    exact ⟨p, ⟨hp, hx⟩, rfl⟩

theorem length_dictErase_of_mem {α : Type} {d : List (String × α)} {k : String}
    (h : k ∈ dictKeys d) : (dictErase d k).length = d.length - 1 := by
  induction d with
  | nil => simp [dictKeys] at h
  | cons p d ih =>
    obtain ⟨k2, v2⟩ := p
    by_cases hk : k2 = k
    · simp [dictErase, hk]
    · have h2 : k ∈ dictKeys d := by
        simp only [dictKeys, List.map_cons, List.mem_cons] at h
        rcases h with h | h
        · exact absurd h.symm hk
        · exact h
      have hpos : 0 < d.length := by
        have : dictKeys d ≠ [] := List.ne_nil_of_mem h2
        have hlen : (dictKeys d).length = d.length := List.length_map d Prod.fst
        cases d with
        | nil => simp [dictKeys] at this
        | cons q d => simp
      simp only [dictErase, if_neg hk, List.length_cons, ih h2]
      omega

theorem foldl_dictErase_eq_filter {α : Type} (ks : List String) (d : List (String × α))
    (hnd : (dictKeys d).Nodup) :
    ks.foldl dictErase d = d.filter (fun p => p.1 ∉ ks) := by
  induction ks generalizing d with
  | nil => simp
  | cons k ks ih =>
    rw [List.foldl_cons, ih (dictErase d k) (dictKeys_nodup_erase hnd k),
      dictErase_eq_filter hnd k, List.filter_filter]
    apply List.filter_congr
    intro p _
    simp only [List.mem_cons, not_or, Bool.and_comm]
    by_cases h1 : p.1 = k <;> by_cases h2 : p.1 ∈ ks <;> simp [h1, h2]

theorem length_foldl_dictErase {α : Type} (ks : List String) (d : List (String × α))
    (hnd : (dictKeys d).Nodup) (hks : ks.Nodup) (hsub : ∀ x ∈ ks, x ∈ dictKeys d) :
    (ks.foldl dictErase d).length = d.length - ks.length := by
  induction ks generalizing d with
  | nil => simp
  | cons k ks ih =>
    have hk : k ∈ dictKeys d := hsub k (List.mem_cons_self k ks)
    rw [List.foldl_cons]
    have hks2 : ks.Nodup := (List.nodup_cons.mp hks).2
    have hknotin : k ∉ ks := (List.nodup_cons.mp hks).1
    have hsub2 : ∀ x ∈ ks, x ∈ dictKeys (dictErase d k) := by
      intro x hx
      exact (mem_dictKeys_erase hnd k x).mpr
        ⟨hsub x (List.mem_cons_of_mem k hx), fun h => hknotin (h ▸ hx)⟩
    rw [ih (dictErase d k) (dictKeys_nodup_erase hnd k) hks2 hsub2,
      length_dictErase_of_mem hk]
    simp only [List.length_cons]
    omega

theorem length_dictInsert_le {α : Type} (d : List (String × α)) (k : String) (v : α) :
    (dictInsert d k v).length ≤ d.length + 1 := by
  induction d with
  | nil => simp [dictInsert]
  | cons p d ih =>
    obtain ⟨k2, v2⟩ := p
    by_cases h : k2 = k
    · simp [dictInsert, h]
    · simp only [dictInsert, if_neg h, List.length_cons]
      omega

/-! ### Sortedness lemmas -/

theorem sorted_keyLt_of_nodup {l : List (String × PyVal)} (hs : List.Sorted keyLe l)
    (hnd : (l.map Prod.fst).Nodup) : List.Sorted keyLt l := by
  have hne : l.Pairwise (fun p q : String × PyVal => p.1 ≠ q.1) := List.pairwise_map.mp hnd
  refine (hs.and hne).imp ?_
  intro p q h
  exact lt_of_le_of_ne h.1 h.2

theorem insertionSort_keyLe_eq_of_perm {kvs kvs' : List (String × PyVal)}
    (hperm : kvs.Perm kvs') (hnd : (kvs.map Prod.fst).Nodup) :
    List.insertionSort keyLe kvs = List.insertionSort keyLe kvs' := by
  have p1 := List.perm_insertionSort keyLe kvs
  have p2 := List.perm_insertionSort keyLe kvs'
  have hp : (List.insertionSort keyLe kvs).Perm (List.insertionSort keyLe kvs') :=
    p1.trans (hperm.trans p2.symm)
  have hnd1 : ((List.insertionSort keyLe kvs).map Prod.fst).Nodup :=
    ((p1.map Prod.fst).symm).nodup hnd
  have hnd2 : ((List.insertionSort keyLe kvs').map Prod.fst).Nodup :=
    ((p2.map Prod.fst).symm).nodup ((hperm.map Prod.fst).nodup hnd)
  exact List.eq_of_perm_of_sorted hp
    (sorted_keyLt_of_nodup (List.sorted_insertionSort keyLe kvs) hnd1)
    (sorted_keyLt_of_nodup (List.sorted_insertionSort keyLe kvs') hnd2)

theorem sorted_tsLe_take_drop (l : List (String × Rat)) (k : Nat)
    (hs : List.Sorted tsLe l) :
    ∀ p ∈ l.take k, ∀ q ∈ l.drop k, p.2 ≤ q.2 := by
  have hsplit : List.Pairwise tsLe (l.take k ++ l.drop k) := by
    rw [List.take_append_drop]
    exact hs
  exact fun p hp q hq => (List.pairwise_append.mp hsplit).2.2 p hp q hq

/-! ### Totality of the JSON encoder on serializable values -/

theorem exceptMap_ok {α β : Type} {f : α → Except String β} {l : List α}
    (h : ∀ x ∈ l, ∃ y, f x = .ok y) : ∃ ys, exceptMap f l = .ok ys := by
  induction l with
  | nil => exact ⟨[], rfl⟩
  | cons x xs ih =>
    obtain ⟨y, hy⟩ := h x (List.mem_cons_self x xs)
    obtain ⟨ys, hys⟩ := ih (fun a ha => h a (List.mem_cons_of_mem x ha))
    refine ⟨y :: ys, ?_⟩
    simp only [exceptMap]
    rw [hy, hys]
    rfl

theorem jsonDumps_ok_of_serializable :
    ∀ (v : PyVal), jsonSerializable v = true → ∃ s, jsonDumps v = .ok s := by
  suffices H : ∀ (n : Nat) (v : PyVal), sizeOf v ≤ n → jsonSerializable v = true →
      ∃ s, jsonDumps v = .ok s from fun v => H (sizeOf v) v le_rfl
  intro n
  induction n with
  | zero =>
    intro v hv _
    exfalso
    cases v <;> simp at hv
  | succ n ih =>
    intro v hv hser
    cases v with
    | str s => exact ⟨jsonQuote s, by simp [jsonDumps]⟩
    | int m => exact ⟨toString m, by simp [jsonDumps]⟩
    | bool b => exact ⟨if b then "true" else "false", by simp [jsonDumps]⟩
    | null => exact ⟨"null", by simp [jsonDumps]⟩
    | obj t => simp [jsonSerializable] at hser
    | list xs =>
      simp only [PyVal.list.sizeOf_spec] at hv
      simp only [jsonSerializable, List.all_eq_true] at hser
      have hall : ∀ x ∈ xs.attach, ∃ y, jsonDumps x.1 = .ok y := by
        intro x _
        have hlt := List.sizeOf_lt_of_mem x.2
        exact ih x.1 (by omega) (hser x (List.mem_attach _ _))
      obtain ⟨parts, hparts⟩ := exceptMap_ok hall
      refine ⟨"[" ++ ", ".intercalate parts ++ "]", ?_⟩
      simp only [jsonDumps]
      rw [hparts]
      rfl
    | dict kvs =>
      simp only [PyVal.dict.sizeOf_spec] at hv
      simp only [jsonSerializable, List.all_eq_true] at hser
      have hall : ∀ kv ∈ (List.insertionSort keyLe kvs).attach,
          ∃ y, (do
            let vs ← jsonDumps kv.1.2
            Except.ok (jsonQuote kv.1.1 ++ ": " ++ vs) : Except String String) = .ok y := by
        intro kv _
        have hmem : kv.1 ∈ kvs := (List.perm_insertionSort keyLe kvs).mem_iff.mp kv.2
        have hlt := List.sizeOf_lt_of_mem hmem
        have hlt2 : sizeOf kv.1.2 < sizeOf kv.1 := by
          obtain ⟨a, b⟩ := kv.1
          simp
        obtain ⟨vs, hvs⟩ := ih kv.1.2 (by omega) (hser ⟨kv.1, hmem⟩ (List.mem_attach _ _))
        exact ⟨jsonQuote kv.1.1 ++ ": " ++ vs, by rw [hvs]; rfl⟩
      obtain ⟨parts, hparts⟩ := exceptMap_ok hall
      refine ⟨"\x7b" ++ ", ".intercalate parts ++ "\x7d", ?_⟩
      simp only [jsonDumps]
      rw [hparts]
      rfl

/-! ### Manager-level unfolding lemmas -/

theorem dictGet?_erase_self {α : Type} {d : List (String × α)}
    (hnd : (dictKeys d).Nodup) (k : String) :
    dictGet? (dictErase d k) k = none :=
  dictGet?_eq_none.mpr (fun hmem => ((mem_dictKeys_erase hnd k k).mp hmem).2 rfl)

theorem cacheGet_memory (md5hex : String → String) {st : MgrState}
    {c : List (String × CacheEntry)} {ao : List (String × Rat)} {ms : Nat}
    (hty : st.cache_type = "memory") (hb : st.backend = .mem c ao ms)
    {ns ident : String} {params : Option (List (String × PyVal))} {key : String}
    (hkey : generateKey md5hex ns ident params = .ok key) (now : Rat) :
    CacheManager.get md5hex st ns ident params now =
      .ok ({ st with backend := .mem (getMemory c ao key now).1 (getMemory c ao key now).2.1 ms },
        (getMemory c ao key now).2.2) := by
  simp only [CacheManager.get]
  rw [hkey]
  show Except.ok (dispatchGet st key now) = _
  simp only [dispatchGet, hty, hb, if_pos]

theorem cacheSet_memory (md5hex : String → String) {st : MgrState}
    {c : List (String × CacheEntry)} {ao : List (String × Rat)} {ms : Nat}
    (hty : st.cache_type = "memory") (hb : st.backend = .mem c ao ms)
    {ns ident : String} {params : Option (List (String × PyVal))} {key : String}
    (hkey : generateKey md5hex ns ident params = .ok key)
    (data : PyVal) (ttl? : Option Rat) (t0 : Rat) :
    CacheManager.set md5hex st ns ident data ttl? params t0 =
      .ok ({ st with backend := (BackendState.mem
          (dictInsert (if c.length ≥ ms then evictLru c ao else (c, ao)).1 key
            { data := data, timestamp := t0, ttl := effectiveTtl ttl? st.default_ttl,
              key := key, size := (pyStr data).length })
          (dictInsert (if c.length ≥ ms then evictLru c ao else (c, ao)).2 key t0) ms) },
        some true) := by
  simp only [CacheManager.set]
  rw [hkey]
  show Except.ok (dispatchSet st key data (effectiveTtl ttl? st.default_ttl) t0) = _
  simp only [dispatchSet, hty, hb, if_pos, setMemory]

/-! ### Claim theorems -/

/-- C5: after the first construction with configuration c1, every later
construction attempt with any configuration c2 returns the same instance and
leaves the manager state unchanged; after `reset_instance` the next
construction initializes from its own fresh configuration. -/
theorem singleton_first_writer_wins (hasDiskcache : Bool) (m : MgrState)
    (cfg2 : Option Config) (cls : ClassState) :
    construct hasDiskcache { instance? := some m, initialized := true } cfg2 =
      ({ instance? := some m, initialized := true }, m) ∧
    construct hasDiskcache (reset_instance cls) cfg2 =
      ({ instance? := some (initManager hasDiskcache cfg2), initialized := true },
        initManager hasDiskcache cfg2) :=
  ⟨rfl, rfl⟩

/-- C8: key encoding is order-independent in the params mapping — permuting
the (distinct-keyed) entries of `params` before encoding yields the identical
cache key, for every hash function, namespace and identifier. -/
theorem generate_key_order_independent (md5hex : String → String) (ns ident : String)
    (kvs kvs' : List (String × PyVal)) (hperm : kvs.Perm kvs')
    (hnd : (kvs.map Prod.fst).Nodup) :
    generateKey md5hex ns ident (some kvs) = generateKey md5hex ns ident (some kvs') := by
  cases kvs with
  | nil =>
    have h2 : kvs' = [] := hperm.symm.eq_nil
    subst h2
    rfl
  | cons a l =>
    cases kvs' with
    | nil => exact absurd hperm.eq_nil (by simp)
    | cons b m =>
      have hsort := insertionSort_keyLe_eq_of_perm hperm hnd
      simp only [generateKey, jsonDumps]
      rw [hsort]

/-- Witness for C8: swapping the two params entries yields the identical key. -/
theorem generate_key_order_independent_witness :
    generateKey (fun s => s) "products" "list"
        (some [("b", PyVal.int 1), ("a", PyVal.str "x")]) =
      generateKey (fun s => s) "products" "list"
        (some [("a", PyVal.str "x"), ("b", PyVal.int 1)]) :=
  generate_key_order_independent (fun s => s) "products" "list" _ _
    (List.Perm.swap _ _ _) (by decide)

/-- C9 (amended): key generation is total and deterministic for every params
mapping whose values are JSON-serializable (numbers, strings, booleans, None,
nested mappings and sequences); a params value outside that fragment makes
`json.dumps` raise `TypeError`, which `_generate_key` propagates. -/
theorem generate_key_total (md5hex : String → String) (ns ident : String)
    (kvs : List (String × PyVal)) (h : ∀ kv ∈ kvs, jsonSerializable kv.2 = true) :
    ∃ k, generateKey md5hex ns ident (some kvs) = .ok k := by
  cases kvs with
  | nil => exact ⟨ns ++ ":" ++ ident, rfl⟩
  | cons a l =>
    have hser : jsonSerializable (.dict (a :: l)) = true := by
      simp only [jsonSerializable, List.all_eq_true]
      intro kv _
      exact h kv.1 kv.2
    obtain ⟨s, hs⟩ := jsonDumps_ok_of_serializable _ hser
    refine ⟨ns ++ ":" ++ ident ++ ":" ++ md5hex s, ?_⟩
    simp only [generateKey]
    rw [hs]
    rfl

/-- Witness for C9's amended claim at a concrete serializable params map. -/
theorem generate_key_total_witness :
    ∃ k, generateKey (fun s => s) "prices" "list" (some [("store", PyVal.int 3)]) = .ok k :=
  generate_key_total (fun s => s) "prices" "list" _ (by
    intro kv hkv
    simp only [List.mem_singleton] at hkv
    subst hkv
    simp [jsonSerializable])

/-- Counterexample to C9 as stated: a params mapping holding a value of an
unsupported type makes key generation raise (model of `TypeError` from
`json.dumps`) instead of returning a key. -/
theorem generate_key_not_total :
    generateKey (fun s => s) "prices" "list" (some [("store", PyVal.obj "set")]) =
      .error "Object of type set is not JSON serializable" := by
  simp only [generateKey, jsonDumps, List.insertionSort, List.orderedInsert, exceptMap,
    List.attach, List.attachWith]
  rfl

/-- C7 (amended): whenever key generation succeeds — in particular for every
params-free call and every JSON-serializable params mapping — `get` and `set`
never raise: every backend fault inside the dispatched operation is absorbed
and surfaces as an absent result resp. `False` (illustrated by the
missing-attribute arms), and an unrecognised backend type falls through to
`None`.  Key generation itself runs before the `try` block, so only a
non-serializable params value can raise to the caller. -/
theorem get_set_fail_open (md5hex : String → String) (st : MgrState) (ns ident : String)
    (params : Option (List (String × PyVal))) (data : PyVal) (ttl? : Option Rat)
    (now : Rat) (key : String) (hkey : generateKey md5hex ns ident params = .ok key) :
    (∃ r, CacheManager.get md5hex st ns ident params now = .ok r) ∧
    (∃ r, CacheManager.set md5hex st ns ident data ttl? params now = .ok r) ∧
    (∀ (st2 : MgrState) (rows : List SqliteRow), st2.cache_type = "memory" →
      st2.backend = .sqlite rows →
      CacheManager.get md5hex st2 ns ident params now = .ok (st2, none)) ∧
    (∀ (st2 : MgrState) (rows : List SqliteRow), st2.cache_type = "memory" →
      st2.backend = .sqlite rows →
      CacheManager.set md5hex st2 ns ident data ttl? params now = .ok (st2, some false)) := by
  refine ⟨⟨dispatchGet st key now, ?_⟩,
    ⟨dispatchSet st key data (effectiveTtl ttl? st.default_ttl) now, ?_⟩, ?_, ?_⟩
  · simp only [CacheManager.get]
    rw [hkey]
    rfl
  · simp only [CacheManager.set]
    rw [hkey]
    rfl
  · intro st2 rows hty hb
    simp only [CacheManager.get]
    rw [hkey]
    show Except.ok (dispatchGet st2 key now) = _
    simp [dispatchGet, hty, hb]
  · intro st2 rows hty hb
    simp only [CacheManager.set]
    rw [hkey]
    show Except.ok (dispatchSet st2 key data (effectiveTtl ttl? st2.default_ttl) now) = _
    simp [dispatchSet, hty, hb]

/-- Witness for C7's amended claim at concrete inputs. -/
theorem get_set_fail_open_witness :
    (∃ r, CacheManager.get (fun s => s) (initManager true none) "a" "x" none 0 = .ok r) ∧
    (∃ r, CacheManager.set (fun s => s) (initManager true none) "a" "x" (PyVal.int 1)
      none none 0 = .ok r) ∧
    (∀ (st2 : MgrState) (rows : List SqliteRow), st2.cache_type = "memory" →
      st2.backend = .sqlite rows →
      CacheManager.get (fun s => s) st2 "a" "x" none 0 = .ok (st2, none)) ∧
    (∀ (st2 : MgrState) (rows : List SqliteRow), st2.cache_type = "memory" →
      st2.backend = .sqlite rows →
      CacheManager.set (fun s => s) st2 "a" "x" (PyVal.int 1) none none 0 =
        .ok (st2, some false)) :=
  get_set_fail_open (fun s => s) (initManager true none) "a" "x" none (PyVal.int 1)
    none 0 "a:x" rfl

/-- Counterexample to C7 as stated: with a non-JSON-serializable params value
the `TypeError` raised by key generation propagates out of `get` (and `set`)
to the caller — `get` does not return absent. -/
theorem get_raises_counterexample :
    CacheManager.get (fun s => s) (initManager true none) "prices" "list"
        (some [("store", PyVal.obj "set")]) 0 =
      .error "Object of type set is not JSON serializable" := by
  simp only [CacheManager.get]
  rw [generate_key_not_total]
  rfl

/-- C10 (amended): a falsy TTL — `0` or an omitted one — is replaced by
`default_ttl`, so with the (non-negative) default the stored entry is not
immediately expired; any nonzero explicit TTL, positive or negative, is kept
verbatim. -/
theorem falsy_ttl_uses_default (md5hex : String → String) (st : MgrState)
    (c : List (String × CacheEntry)) (ao : List (String × Rat)) (ms : Nat)
    (ns ident : String) (v : PyVal) (key : String) (t0 : Rat)
    (hty : st.cache_type = "memory") (hb : st.backend = .mem c ao ms)
    (hkey : generateKey md5hex ns ident none = .ok key)
    (hd : 0 ≤ st.default_ttl) :
    (effectiveTtl (some 0) st.default_ttl = st.default_ttl) ∧
    (effectiveTtl none st.default_ttl = st.default_ttl) ∧
    (∀ t : Rat, t ≠ 0 → effectiveTtl (some t) st.default_ttl = t) ∧
    (∃ c2 ao2,
      CacheManager.set md5hex st ns ident v (some 0) none t0 =
        .ok ({ st with backend := .mem c2 ao2 ms }, some true) ∧
      dictGet? c2 key = some { data := v, timestamp := t0, ttl := st.default_ttl,
                               key := key, size := (pyStr v).length } ∧
      CacheEntry.is_expired { data := v, timestamp := t0, ttl := st.default_ttl,
                              key := key, size := (pyStr v).length } t0 = false) := by
  have he0 : effectiveTtl (some 0) st.default_ttl = st.default_ttl := by
    simp [effectiveTtl]
  refine ⟨he0, rfl, fun t ht => by simp [effectiveTtl, ht], ?_⟩
  have hset := cacheSet_memory md5hex hty hb hkey v (some 0) t0
  rw [he0] at hset
  refine ⟨_, _, hset, dictGet?_insert_self _ _ _, ?_⟩
  simp only [CacheEntry.is_expired]
  exact decide_eq_false (by linarith)

/-- Witness for C10's amended claim at concrete inputs. -/
theorem falsy_ttl_uses_default_witness :
    (effectiveTtl (some 0) (3600 : Rat) = 3600) ∧
    (effectiveTtl none (3600 : Rat) = 3600) ∧
    (∀ t : Rat, t ≠ 0 → effectiveTtl (some t) (3600 : Rat) = t) ∧
    (∃ c2 ao2,
      CacheManager.set (fun s => s) (initManager true (some { type? := some "memory" }))
          "a" "x" (PyVal.int 5) (some 0) none 0 =
        .ok ({ initManager true (some { type? := some "memory" }) with
          backend := .mem c2 ao2 1000 }, some true) ∧
      dictGet? c2 "a:x" = some { data := PyVal.int 5, timestamp := 0, ttl := 3600,
                                 key := "a:x", size := (pyStr (PyVal.int 5)).length } ∧
      CacheEntry.is_expired { data := PyVal.int 5, timestamp := 0, ttl := 3600,
                              key := "a:x", size := (pyStr (PyVal.int 5)).length } 0 = false) :=
  falsy_ttl_uses_default (fun s => s) (initManager true (some { type? := some "memory" }))
    [] [] 1000 "a" "x" (PyVal.int 5) "a:x" 0 rfl rfl rfl (by norm_num [initManager])

/-- Counterexample to C10 as stated: the explicit TTL `-1` is not strictly
positive, yet it overrides the default — the stored entry keeps `ttl = -1`
rather than `default_ttl = 3600`. -/
theorem falsy_ttl_counterexample :
    effectiveTtl (some (-1)) 3600 = -1 ∧ ((-1 : Rat) ≠ 3600) ∧ ¬((0 : Rat) < -1) ∧
    CacheManager.set (fun s => s) (initManager true (some { type? := some "memory" }))
        "a" "x" (PyVal.int 5) (some (-1)) none 0 =
      .ok ({ cache_type := "memory", default_ttl := 3600,
             backend := .mem [("a:x", { data := PyVal.int 5, timestamp := 0, ttl := -1,
                                        key := "a:x", size := 1 })] [("a:x", 0)] 1000 }, some true) := by
  refine ⟨by norm_num [effectiveTtl], by norm_num, by norm_num, ?_⟩
  have h := @cacheSet_memory (fun s => s)
    (initManager true (some { type? := some "memory" })) [] [] 1000 rfl rfl
    "a" "x" none "a:x" rfl (PyVal.int 5) (some (-1)) 0
  rw [h]
  norm_num [effectiveTtl, initManager, pyStr, pyRepr, dictInsert]
  rfl

/-- C1: round-trip on the Memory backend — after a successful
`set(ns, id, v, ttl=T)` with `T > 0`, a `get(ns, id)` with the same (or
equally omitted) params at any time `t1 < t0 + T` returns `v`. -/
theorem memory_round_trip (md5hex : String → String) (st : MgrState)
    (c : List (String × CacheEntry)) (ao : List (String × Rat)) (ms : Nat)
    (ns ident : String) (params : Option (List (String × PyVal))) (v : PyVal)
    (key : String) (T t0 t1 : Rat)
    (hty : st.cache_type = "memory") (hb : st.backend = .mem c ao ms)
    (hkey : generateKey md5hex ns ident params = .ok key)
    (hT : 0 < T) (helapsed : t1 < t0 + T) :
    ∃ st1 st2,
      CacheManager.set md5hex st ns ident v (some T) params t0 = .ok (st1, some true) ∧
      CacheManager.get md5hex st1 ns ident params t1 = .ok (st2, some v) := by
  have hTe : effectiveTtl (some T) st.default_ttl = T := by
    simp [effectiveTtl, ne_of_gt hT]
  have hset := cacheSet_memory md5hex hty hb hkey v (some T) t0
  rw [hTe] at hset
  set ev := if c.length ≥ ms then evictLru c ao else (c, ao) with hev
  set entry : CacheEntry :=
    { data := v, timestamp := t0, ttl := T, key := key, size := (pyStr v).length } with hentry
  set c2 := dictInsert ev.1 key entry with hc2
  set ao2 := dictInsert ev.2 key t0 with hao2
  set st1 : MgrState := { st with backend := .mem c2 ao2 ms } with hst1
  have hty1 : st1.cache_type = "memory" := hty
  have hb1 : st1.backend = .mem c2 ao2 ms := rfl
  have hget := cacheGet_memory md5hex hty1 hb1 hkey t1
  have hlook : dictGet? c2 key = some entry := dictGet?_insert_self _ _ _
  have hexp : entry.is_expired t1 = false := by
    simp only [CacheEntry.is_expired, hentry]
    exact decide_eq_false (lt_asymm helapsed)
  have hmem : getMemory c2 ao2 key t1 = (c2, dictInsert ao2 key t1, some entry.data) := by
    simp [getMemory, hlook, hexp]
  refine ⟨st1, { st1 with backend := .mem c2 (dictInsert ao2 key t1) ms }, hset, ?_⟩
  rw [hget, hmem]

/-- Witness for C1 at concrete inputs: `set` at time 0 with TTL 10, `get` at
time 5 returns the stored value. -/
theorem memory_round_trip_witness :
    ∃ st1 st2,
      CacheManager.set (fun s => s) (initManager true (some { type? := some "memory" }))
          "a" "x" (PyVal.int 9) (some 10) none 0 = .ok (st1, some true) ∧
      CacheManager.get (fun s => s) st1 "a" "x" none 5 = .ok (st2, some (PyVal.int 9)) :=
  memory_round_trip (fun s => s) (initManager true (some { type? := some "memory" }))
    [] [] 1000 "a" "x" none (PyVal.int 9) "a:x" 10 0 5 rfl rfl rfl
    (by norm_num) (by norm_num)

/-- C2: `is_expired` holds exactly when the current time strictly exceeds
`timestamp + ttl`; a memory `get` on an expired key deletes the entry from
both the cache and the access-order map and reports absent; a returned
payload always comes from an unexpired stored entry; and a `get` on any other
key leaves the (possibly expired) entry in place — purging is lazy, on the
expired key's own next access, never a sweep. -/
theorem expiry_semantics :
    (∀ (e : CacheEntry) (now : Rat), e.is_expired now = true ↔ e.timestamp + e.ttl < now) ∧
    (∀ c ao (key : String) (now : Rat) e, dictGet? c key = some e → e.is_expired now = true →
      getMemory c ao key now = (dictErase c key, dictErase ao key, none)) ∧
    (∀ c ao (key : String) (now : Rat) e, (dictKeys c).Nodup →
      dictGet? c key = some e → e.is_expired now = true →
      dictGet? (getMemory c ao key now).1 key = none) ∧
    (∀ c ao (key : String) (now : Rat) (v : PyVal),
      (getMemory c ao key now).2.2 = some v →
      ∃ e, dictGet? c key = some e ∧ e.is_expired now = false ∧ e.data = v) ∧
    (∀ c ao (k k2 : String) (now : Rat), k2 ≠ k →
      dictGet? (getMemory c ao k2 now).1 k = dictGet? c k) := by
  refine ⟨?_, ?_, ?_, ?_, ?_⟩
  · intro e now
    simp [CacheEntry.is_expired]
  · intro c ao key now e hl hexp
    simp [getMemory, hl, hexp]
  · intro c ao key now e hnd hl hexp
    simp only [getMemory, hl, hexp, if_pos]
    exact dictGet?_erase_self hnd key
  · intro c ao key now v h
    cases hl : dictGet? c key with
    | none => simp [getMemory, hl] at h
    | some e =>
      by_cases hexp : e.is_expired now = true
      · simp [getMemory, hl, hexp] at h
      · have hexp2 : e.is_expired now = false := Bool.eq_false_iff.mpr hexp
        simp only [getMemory, hl, hexp2, Bool.false_eq_true, if_neg] at h
        exact ⟨e, rfl, hexp2, by simpa using h⟩
  · intro c ao k k2 now hne
    cases hl : dictGet? c k2 with
    | none => simp [getMemory, hl]
    | some e =>
      by_cases hexp : e.is_expired now = true
      · simp only [getMemory, hl, hexp, if_pos]
        exact dictGet?_erase_ne c k2 k (fun h => hne h.symm)
      · simp [getMemory, hl, Bool.eq_false_iff.mpr hexp]

/-- Witness for C2's conjuncts at a concrete expired entry. -/
theorem expiry_semantics_witness :
    (CacheEntry.is_expired { data := PyVal.int 7, timestamp := 0, ttl := 1, key := "a:x" } 2
        = true ↔ (0 : Rat) + 1 < 2) ∧
    getMemory [("a:x", { data := PyVal.int 7, timestamp := 0, ttl := 1, key := "a:x" })]
        [("a:x", 0)] "a:x" 2 =
      (dictErase [("a:x", { data := PyVal.int 7, timestamp := 0, ttl := 1, key := "a:x" })]
        "a:x", dictErase [("a:x", (0 : Rat))] "a:x", none) ∧
    dictGet? (getMemory
        [("a:x", { data := PyVal.int 7, timestamp := 0, ttl := 1, key := "a:x" })]
        [("a:x", 0)] "a:x" 2).1 "a:x" = none ∧
    dictGet? (getMemory
        [("a:x", { data := PyVal.int 7, timestamp := 0, ttl := 1, key := "a:x" })]
        [("a:x", 0)] "other" 2).1 "a:x" =
      dictGet? [("a:x", { data := PyVal.int 7, timestamp := 0, ttl := 1, key := "a:x" })]
        "a:x" :=
  ⟨expiry_semantics.1 _ 2,
   expiry_semantics.2.1 _ _ "a:x" 2
     { data := PyVal.int 7, timestamp := 0, ttl := 1, key := "a:x" }
     (by simp [dictGet?]) (by simp [CacheEntry.is_expired]),
   expiry_semantics.2.2.1 _ _ "a:x" 2
     { data := PyVal.int 7, timestamp := 0, ttl := 1, key := "a:x" }
     (by simp [dictKeys]) (by simp [dictGet?])
     (by simp [CacheEntry.is_expired]),
   expiry_semantics.2.2.2.2 _ _ "a:x" "other" 2 (by simp)⟩

/-- C3 (amended): when `set` runs with the entry count at least `max_size`
and at least one key is tracked, eviction runs before the insertion and
removes exactly `max(1, n / 10)` keys (n = number of tracked keys) from both
the entry map and the access-order map; the removed keys are the ones with
the smallest last-access timestamps, and filling the cache to `maxEntries`
and inserting one more entry leaves at most
`maxEntries - maxEntries / 10 + 1` entries.  (When no key is tracked,
`_evict_lru` returns without removing anything — see the counterexample.) -/
theorem lru_eviction (c : List (String × CacheEntry)) (ao : List (String × Rat)) (ms : Nat)
    (key : String) (data : PyVal) (ttl now : Rat)
    (hndc : (dictKeys c).Nodup) (hnda : (dictKeys ao).Nodup)
    (hperm : (dictKeys c).Perm (dictKeys ao))
    (hne : ao ≠ []) (hfull : ms ≤ c.length) :
    evictLru c ao =
      (c.filter (fun p => p.1 ∉ dictKeys ((List.insertionSort tsLe ao).take
          (max 1 (ao.length / 10)))),
       ao.filter (fun p => p.1 ∉ dictKeys ((List.insertionSort tsLe ao).take
          (max 1 (ao.length / 10))))) ∧
    (dictKeys ((List.insertionSort tsLe ao).take (max 1 (ao.length / 10)))).length =
      max 1 (ao.length / 10) ∧
    (evictLru c ao).1.length = c.length - max 1 (ao.length / 10) ∧
    (evictLru c ao).2.length = ao.length - max 1 (ao.length / 10) ∧
    (∀ p ∈ (List.insertionSort tsLe ao).take (max 1 (ao.length / 10)),
      ∀ q ∈ (List.insertionSort tsLe ao).drop (max 1 (ao.length / 10)), p.2 ≤ q.2) ∧
    setMemory c ao ms key data ttl now =
      (dictInsert (evictLru c ao).1 key
        { data := data, timestamp := now, ttl := ttl, key := key,
          size := (pyStr data).length },
       dictInsert (evictLru c ao).2 key now, true) ∧
    (setMemory c ao ms key data ttl now).1.length ≤ c.length - c.length / 10 + 1 := by
  have sp := List.perm_insertionSort tsLe ao
  have slen : (List.insertionSort tsLe ao).length = ao.length := sp.length_eq
  have hn : 0 < ao.length := List.length_pos.mpr hne
  have hclen : c.length = ao.length := by
    have h := hperm.length_eq
    simpa [dictKeys] using h
  set n := ao.length with hnn
  set k := max 1 (n / 10) with hk
  have hkn : k ≤ n := by
    have := Nat.div_le_self n 10
    omega
  have hkd : n / 10 ≤ k := le_max_right _ _
  set victims := dictKeys ((List.insertionSort tsLe ao).take k) with hv
  have hvtake : victims = (dictKeys (List.insertionSort tsLe ao)).take k := by
    rw [hv, dictKeys, dictKeys, List.map_take]
  have hvlen : victims.length = k := by
    rw [hvtake, List.length_take, dictKeys, List.length_map, slen]
    omega
  have hksnodup : (dictKeys (List.insertionSort tsLe ao)).Nodup :=
    ((sp.map Prod.fst).symm).nodup hnda
  have hvnodup : victims.Nodup := by
    rw [hvtake]
    exact hksnodup.sublist (List.take_sublist _ _)
  have hvsub_ao : ∀ x ∈ victims, x ∈ dictKeys ao := by
    intro x hx
    rw [hvtake] at hx
    have hx2 : x ∈ dictKeys (List.insertionSort tsLe ao) :=
      List.take_subset _ _ hx
    exact ((sp.map Prod.fst).mem_iff).mp hx2
  have hvsub_c : ∀ x ∈ victims, x ∈ dictKeys c :=
    fun x hx => (hperm.mem_iff).mpr (hvsub_ao x hx)
  have hev : evictLru c ao = (victims.foldl dictErase c, victims.foldl dictErase ao) := by
    simp only [evictLru, if_neg hne, slen]
  have hev1 : (evictLru c ao).1.length = c.length - k := by
    rw [hev]
    exact length_foldl_dictErase victims c hndc hvnodup hvsub_c |>.trans (by rw [hvlen])
  have hev2 : (evictLru c ao).2.length = ao.length - k := by
    rw [hev]
    exact length_foldl_dictErase victims ao hnda hvnodup hvsub_ao |>.trans (by rw [hvlen])
  have hsetm : setMemory c ao ms key data ttl now =
      (dictInsert (evictLru c ao).1 key
        { data := data, timestamp := now, ttl := ttl, key := key,
          size := (pyStr data).length },
       dictInsert (evictLru c ao).2 key now, true) := by
    simp only [setMemory, ge_iff_le, if_pos hfull]
  refine ⟨?_, hvlen, hev1, hev2,
    sorted_tsLe_take_drop _ k (List.sorted_insertionSort tsLe ao), hsetm, ?_⟩
  · rw [hev, foldl_dictErase_eq_filter victims c hndc,
      foldl_dictErase_eq_filter victims ao hnda]
  · rw [hsetm]
    have hle := length_dictInsert_le (evictLru c ao).1 key
      { data := data, timestamp := now, ttl := ttl, key := key,
        size := (pyStr data).length }
    rw [hev1] at hle
    dsimp only
    rw [hclen]
    omega

/-- Witness for C3's amended claim: a full one-entry cache evicts its single
(least-recently-accessed) key. -/
theorem lru_eviction_witness :
    (dictKeys ((List.insertionSort tsLe [("k", (0 : Rat))]).take
      (max 1 ([("k", (0 : Rat))].length / 10)))).length =
        max 1 ([("k", (0 : Rat))].length / 10) ∧
    (evictLru [("k", { data := PyVal.int 1, timestamp := 0, ttl := 5, key := "k" })]
      [("k", (0 : Rat))]).1.length = 1 - max 1 (1 / 10) := by
  have h := lru_eviction
    [("k", { data := PyVal.int 1, timestamp := 0, ttl := 5, key := "k" })]
    [("k", (0 : Rat))] 1 "k2" (PyVal.int 2) 5 3
    (by simp [dictKeys]) (by simp [dictKeys]) (List.Perm.refl _) (by simp) (by simp)
  exact ⟨h.2.1, h.2.2.1⟩

/-- Counterexample to C3 as stated: with `max_size = 0` and an empty cache the
eviction trigger `len(cache) >= max_size` fires on `set`, but `_evict_lru`
removes `0` keys (its early return on an empty access-order map) whereas the
claim demands exactly `max(1, 0 // 10) = 1` removals; the insert then
proceeds. -/
theorem lru_eviction_counterexample :
    ([] : List (String × CacheEntry)).length ≥ 0 ∧
    evictLru ([] : List (String × CacheEntry)) ([] : List (String × Rat)) = ([], []) ∧
    (([] : List (String × Rat)).length -
      (evictLru ([] : List (String × CacheEntry)) ([] : List (String × Rat))).2.length ≠
      max 1 (([] : List (String × Rat)).length / 10)) ∧
    setMemory [] [] 0 "k" (PyVal.int 1) 1 0 =
      ([("k", { data := PyVal.int 1, timestamp := 0, ttl := 1, key := "k", size := 1 })],
       [("k", (0 : Rat))], true) := by
  refine ⟨le_refl 0, rfl, by simp [evictLru], ?_⟩
  simp [setMemory, evictLru, dictInsert, pyStr, pyRepr]
  rfl

/-- C4 (code bug): when diskcache is unavailable, `_init_disk_cache` installs
the memory structures but leaves `self.cache_type` as `"disk"`, so dispatch
keeps routing to the disk handlers: `set` hits `dict.set` (an
`AttributeError`, swallowed) and always returns `False` storing nothing,
`get` always reports absent, and `get_stats` reports an error instead of
memory statistics — the manager does not behave as the Memory backend, which
stores the entry and returns `True`. -/
theorem disk_fallback_divergence :
    (initManager false (some { type? := some "disk" })).cache_type = "disk" ∧
    (initManager false (some { type? := some "disk" })).backend = .mem [] [] 1000 ∧
    CacheManager.set (fun s => s) (initManager false (some { type? := some "disk" }))
        "a" "x" (PyVal.int 1) none none 0 =
      .ok (initManager false (some { type? := some "disk" }), some false) ∧
    CacheManager.get (fun s => s) (initManager false (some { type? := some "disk" }))
        "a" "x" none 0 =
      .ok (initManager false (some { type? := some "disk" }), none) ∧
    (CacheManager.get_stats (initManager false (some { type? := some "disk" }))).error =
      some "AttributeError" ∧
    CacheManager.set (fun s => s) (initManager true (some { type? := some "memory" }))
        "a" "x" (PyVal.int 1) none none 0 =
      .ok ({ cache_type := "memory", default_ttl := 3600,
             backend := .mem [("a:x", { data := PyVal.int 1, timestamp := 0, ttl := 3600,
                                        key := "a:x", size := 1 })] [("a:x", 0)] 1000 },
        some true) := by
  refine ⟨rfl, rfl, ?_, ?_, rfl, ?_⟩
  · simp only [CacheManager.set]
    show Except.ok (dispatchSet _ "a:x" _ _ 0) = _
    simp [dispatchSet, initManager, initDiskCache, initMemoryCache, setDisk, effectiveTtl]
  · simp only [CacheManager.get]
    show Except.ok (dispatchGet _ "a:x" 0) = _
    simp [dispatchGet, initManager, initDiskCache, initMemoryCache, getDisk]
  · have h := @cacheSet_memory (fun s => s)
      (initManager true (some { type? := some "memory" })) [] [] 1000 rfl rfl
      "a" "x" none "a:x" rfl (PyVal.int 1) none 0
    rw [h]
    norm_num [effectiveTtl, initManager, pyStr, pyRepr, dictInsert]
    rfl

/-- C6 (amended): `invalidate(namespace)` with no identifier deletes, on the
Memory and Disk backends, exactly the stored keys whose encoded form starts
with `namespace + ":"` (on Memory also their access-order records), leaving
every other namespace unchanged; the `set("a","x",v1); set("b","x",v2);
invalidate("a")` scenario holds on all three backends.  On the SQLite backend
deletion instead follows SQL `LIKE 'namespace:%'` semantics —
case-insensitive on ASCII, with `%`/`_` wildcards — which coincides with the
exact prefix rule only for wildcard-free, case-exact namespaces (see the
counterexample). -/
theorem invalidate_namespace_exact (md5hex : String → String) :
    (∀ (st : MgrState) c ao ms (ns : String), st.cache_type = "memory" →
      st.backend = .mem c ao ms → (dictKeys c).Nodup → (dictKeys ao).Nodup →
      CacheManager.invalidate md5hex st ns none none =
        .ok { st with backend := (BackendState.mem
          (c.filter (fun p => !(pyStartswith p.1 (ns ++ ":"))))
          (ao.filter (fun p =>
            p.1 ∉ (dictKeys c).filter (fun k => pyStartswith k (ns ++ ":")))) ms) }) ∧
    (∀ (st : MgrState) e (ns : String), st.cache_type = "disk" →
      st.backend = .disk e → (dictKeys e).Nodup →
      CacheManager.invalidate md5hex st ns none none =
        .ok { st with backend := (BackendState.disk
          (e.filter (fun p => !(pyStartswith p.1 (ns ++ ":"))))) }) ∧
    (∃ s1 s2 s3 s4 s5,
      CacheManager.set md5hex (initManager true (some { type? := some "memory" }))
        "a" "x" (PyVal.int 1) none none 0 = .ok (s1, some true) ∧
      CacheManager.set md5hex s1 "b" "x" (PyVal.int 2) none none 0 = .ok (s2, some true) ∧
      CacheManager.invalidate md5hex s2 "a" none none = .ok s3 ∧
      CacheManager.get md5hex s3 "b" "x" none 0 = .ok (s4, some (PyVal.int 2)) ∧
      CacheManager.get md5hex s3 "a" "x" none 0 = .ok (s5, none)) ∧
    (∃ s1 s2 s3 s4 s5,
      CacheManager.set md5hex (initManager true (some { type? := some "disk" }))
        "a" "x" (PyVal.int 1) none none 0 = .ok (s1, some true) ∧
      CacheManager.set md5hex s1 "b" "x" (PyVal.int 2) none none 0 = .ok (s2, some true) ∧
      CacheManager.invalidate md5hex s2 "a" none none = .ok s3 ∧
      CacheManager.get md5hex s3 "b" "x" none 0 = .ok (s4, some (PyVal.int 2)) ∧
      CacheManager.get md5hex s3 "a" "x" none 0 = .ok (s5, none)) ∧
    (∃ s1 s2 s3 s4 s5,
      CacheManager.set md5hex (initManager true (some { type? := some "sqlite" }))
        "a" "x" (PyVal.int 1) none none 0 = .ok (s1, some true) ∧
      CacheManager.set md5hex s1 "b" "x" (PyVal.int 2) none none 0 = .ok (s2, some true) ∧
      CacheManager.invalidate md5hex s2 "a" none none = .ok s3 ∧
      CacheManager.get md5hex s3 "b" "x" none 0 = .ok (s4, some (PyVal.int 2)) ∧
      CacheManager.get md5hex s3 "a" "x" none 0 = .ok (s5, none)) := by
  refine ⟨?_, ?_, ?_, ?_, ?_⟩
  · intro st c ao ms ns hty hb hndc hnda
    simp only [CacheManager.invalidate, CacheManager.deleteNamespace, hty, hb, if_pos]
    rw [foldl_dictErase_eq_filter _ c hndc, foldl_dictErase_eq_filter _ ao hnda]
    have hc : c.filter
        (fun p => decide (p.1 ∉ (dictKeys c).filter (fun k => pyStartswith k (ns ++ ":")))) =
        c.filter (fun p => !(pyStartswith p.1 (ns ++ ":"))) := by
      apply List.filter_congr
      intro p hp
      have hpk : p.1 ∈ dictKeys c := List.mem_map_of_mem Prod.fst hp
      by_cases hs : pyStartswith p.1 (ns ++ ":") = true
      · simp [List.mem_filter, hs, hpk]
      · simp only [Bool.not_eq_true] at hs
        simp [List.mem_filter, hs]
    rw [hc]
  · intro st e ns hty hb hnd
    have hty2 : ¬(st.cache_type = "memory") := by
      rw [hty]
      decide
    simp only [CacheManager.invalidate, CacheManager.deleteNamespace, hty, hb,
      if_neg hty2, if_pos]
    rw [foldl_dictErase_eq_filter _ e hnd]
    have hd : e.filter
        (fun p => decide (p.1 ∉ (dictKeys e).filter (fun k => pyStartswith k (ns ++ ":")))) =
        e.filter (fun p => !(pyStartswith p.1 (ns ++ ":"))) := by
      apply List.filter_congr
      intro p hp
      have hpk : p.1 ∈ dictKeys e := List.mem_map_of_mem Prod.fst hp
      by_cases hs : pyStartswith p.1 (ns ++ ":") = true
      · simp [List.mem_filter, hs, hpk]
      · simp only [Bool.not_eq_true] at hs
        simp [List.mem_filter, hs]
    rw [hd]
    simp
  · refine ⟨⟨"memory", 3600, .mem [("a:x", ⟨PyVal.int 1, 0, 3600, "a:x", 1⟩)]
        [("a:x", 0)] 1000⟩,
      ⟨"memory", 3600, .mem [("a:x", ⟨PyVal.int 1, 0, 3600, "a:x", 1⟩),
        ("b:x", ⟨PyVal.int 2, 0, 3600, "b:x", 1⟩)] [("a:x", 0), ("b:x", 0)] 1000⟩,
      ⟨"memory", 3600, .mem [("b:x", ⟨PyVal.int 2, 0, 3600, "b:x", 1⟩)]
        [("b:x", 0)] 1000⟩,
      ⟨"memory", 3600, .mem [("b:x", ⟨PyVal.int 2, 0, 3600, "b:x", 1⟩)]
        [("b:x", 0)] 1000⟩,
      ⟨"memory", 3600, .mem [("b:x", ⟨PyVal.int 2, 0, 3600, "b:x", 1⟩)]
        [("b:x", 0)] 1000⟩, ?_, ?_, ?_, ?_, ?_⟩
    · simp only [CacheManager.set]
      show Except.ok (dispatchSet _ "a:x" _ _ 0) = _
      simp [dispatchSet, initManager, initMemoryCache, setMemory, evictLru, effectiveTtl,
        dictInsert, pyStr, pyRepr]
      rfl
    · simp only [CacheManager.set]
      show Except.ok (dispatchSet _ "b:x" _ _ 0) = _
      simp [dispatchSet, setMemory, evictLru, effectiveTtl, dictInsert, pyStr, pyRepr]
      rfl
    · simp [CacheManager.invalidate, CacheManager.deleteNamespace, dictKeys, pyStartswith,
        List.isPrefixOf, dictErase]
    · simp only [CacheManager.get]
      show Except.ok (dispatchGet _ "b:x" 0) = _
      simp [dispatchGet, getMemory, dictGet?, dictInsert, CacheEntry.is_expired]
      norm_num
    · simp only [CacheManager.get]
      show Except.ok (dispatchGet _ "a:x" 0) = _
      simp [dispatchGet, getMemory, dictGet?]
  · refine ⟨⟨"disk", 3600, .disk [("a:x", ⟨⟨PyVal.int 1, 0, 3600, "a:x", 0⟩, 3600⟩)]⟩,
      ⟨"disk", 3600, .disk [("a:x", ⟨⟨PyVal.int 1, 0, 3600, "a:x", 0⟩, 3600⟩),
        ("b:x", ⟨⟨PyVal.int 2, 0, 3600, "b:x", 0⟩, 3600⟩)]⟩,
      ⟨"disk", 3600, .disk [("b:x", ⟨⟨PyVal.int 2, 0, 3600, "b:x", 0⟩, 3600⟩)]⟩,
      ⟨"disk", 3600, .disk [("b:x", ⟨⟨PyVal.int 2, 0, 3600, "b:x", 0⟩, 3600⟩)]⟩,
      ⟨"disk", 3600, .disk [("b:x", ⟨⟨PyVal.int 2, 0, 3600, "b:x", 0⟩, 3600⟩)]⟩,
      ?_, ?_, ?_, ?_, ?_⟩
    · simp only [CacheManager.set]
      show Except.ok (dispatchSet _ "a:x" _ _ 0) = _
      simp [dispatchSet, initManager, initDiskCache, setDisk, effectiveTtl, dictInsert]
    · simp only [CacheManager.set]
      show Except.ok (dispatchSet _ "b:x" _ _ 0) = _
      simp [dispatchSet, setDisk, effectiveTtl, dictInsert]
    · simp [CacheManager.invalidate, CacheManager.deleteNamespace, dictKeys, pyStartswith,
        List.isPrefixOf, dictErase]
    · simp only [CacheManager.get]
      show Except.ok (dispatchGet _ "b:x" 0) = _
      simp [dispatchGet, getDisk, diskcacheGet, dictGet?, CacheEntry.is_expired]
      norm_num
    · simp only [CacheManager.get]
      show Except.ok (dispatchGet _ "a:x" 0) = _
      simp [dispatchGet, getDisk, diskcacheGet, dictGet?]
  · refine ⟨⟨"sqlite", 3600, .sqlite [⟨"a:x", PyVal.int 1, 0, 3600, 1⟩]⟩,
      ⟨"sqlite", 3600, .sqlite [⟨"a:x", PyVal.int 1, 0, 3600, 1⟩,
        ⟨"b:x", PyVal.int 2, 0, 3600, 1⟩]⟩,
      ⟨"sqlite", 3600, .sqlite [⟨"b:x", PyVal.int 2, 0, 3600, 1⟩]⟩,
      ⟨"sqlite", 3600, .sqlite [⟨"b:x", PyVal.int 2, 0, 3600, 1⟩]⟩,
      ⟨"sqlite", 3600, .sqlite [⟨"b:x", PyVal.int 2, 0, 3600, 1⟩]⟩, ?_, ?_, ?_, ?_, ?_⟩
    · simp only [CacheManager.set]
      show Except.ok (dispatchSet _ "a:x" _ _ 0) = _
      simp [dispatchSet, initManager, initSqliteCache, setSqlite, effectiveTtl, pyRepr]
      rfl
    · simp only [CacheManager.set]
      show Except.ok (dispatchSet _ "b:x" _ _ 0) = _
      simp [dispatchSet, setSqlite, effectiveTtl, pyRepr]
      rfl
    · simp [CacheManager.invalidate, CacheManager.deleteNamespace, likeMatch, sqliteLikeChar]
    · simp only [CacheManager.get]
      show Except.ok (dispatchGet _ "b:x" 0) = _
      simp [dispatchGet, getSqlite, CacheEntry.is_expired]
      norm_num
    · simp only [CacheManager.get]
      show Except.ok (dispatchGet _ "a:x" 0) = _
      simp [dispatchGet, getSqlite]

/-- Witness for C6's amended claim: the Memory exactness conjunct applied to a
concrete two-namespace store. -/
theorem invalidate_namespace_exact_witness :
    CacheManager.invalidate (fun s => s)
        ⟨"memory", 3600, .mem [("a:x", ⟨PyVal.int 1, 0, 3600, "a:x", 1⟩),
          ("b:x", ⟨PyVal.int 2, 0, 3600, "b:x", 1⟩)] [("a:x", 0), ("b:x", 0)] 1000⟩
        "a" none none =
      .ok { (⟨"memory", 3600, .mem [("a:x", ⟨PyVal.int 1, 0, 3600, "a:x", 1⟩),
          ("b:x", ⟨PyVal.int 2, 0, 3600, "b:x", 1⟩)] [("a:x", 0), ("b:x", 0)] 1000⟩ :
            MgrState) with
        backend := (BackendState.mem
          ([("a:x", ⟨PyVal.int 1, 0, 3600, "a:x", 1⟩),
            ("b:x", ⟨PyVal.int 2, 0, 3600, "b:x", 1⟩)].filter
              (fun p => !(pyStartswith p.1 ("a" ++ ":"))))
          ([("a:x", (0 : Rat)), ("b:x", 0)].filter (fun p =>
            p.1 ∉ (dictKeys [("a:x", (⟨PyVal.int 1, 0, 3600, "a:x", 1⟩ : CacheEntry)),
              ("b:x", ⟨PyVal.int 2, 0, 3600, "b:x", 1⟩)]).filter
                (fun k => pyStartswith k ("a" ++ ":")))) 1000) } :=
  (invalidate_namespace_exact (fun s => s)).1
    ⟨"memory", 3600, .mem [("a:x", ⟨PyVal.int 1, 0, 3600, "a:x", 1⟩),
      ("b:x", ⟨PyVal.int 2, 0, 3600, "b:x", 1⟩)] [("a:x", 0), ("b:x", 0)] 1000⟩
    _ _ _ "a" rfl rfl (by simp [dictKeys]) (by simp [dictKeys])

/-- Counterexample to C6 as stated: on the SQLite backend the namespace wipe
is a SQL `LIKE` delete, whose `_` wildcard lets `invalidate("a_b")` delete the
stored key `"axb:1"` of the unrelated namespace `"axb"` even though that key
does not start with `"a_b:"`. -/
theorem invalidate_namespace_counterexample :
    pyStartswith "axb:1" ("a_b" ++ ":") = false ∧
    CacheManager.set (fun s => s) (initManager true (some { type? := some "sqlite" }))
        "axb" "1" (PyVal.int 7) none none 0 =
      .ok (⟨"sqlite", 3600, .sqlite [⟨"axb:1", PyVal.int 7, 0, 3600, 1⟩]⟩, some true) ∧
    CacheManager.invalidate (fun s => s)
        ⟨"sqlite", 3600, .sqlite [⟨"axb:1", PyVal.int 7, 0, 3600, 1⟩]⟩ "a_b" none none =
      .ok ⟨"sqlite", 3600, .sqlite []⟩ ∧
    CacheManager.get (fun s => s) ⟨"sqlite", 3600, .sqlite []⟩ "axb" "1" none 0 =
      .ok (⟨"sqlite", 3600, .sqlite []⟩, none) := by
  refine ⟨by simp [pyStartswith, List.isPrefixOf], ?_, ?_, ?_⟩
  · simp only [CacheManager.set]
    show Except.ok (dispatchSet _ "axb:1" _ _ 0) = _
    simp [dispatchSet, initManager, initSqliteCache, setSqlite, effectiveTtl, pyRepr]
    rfl
  · simp [CacheManager.invalidate, CacheManager.deleteNamespace, likeMatch, sqliteLikeChar]
  · simp only [CacheManager.get]
    show Except.ok (dispatchGet _ "axb:1" 0) = _
    simp [dispatchGet, getSqlite]
